import Mathlib

/-!
Verification development for the `db_migrator_function` repository.

The repository migrates row data of a set of tables between two MySQL
databases.  Two parts are embedded here:

* the topological orderer `getMigrationOrder` (source `src/unnamed/part_001`,
  lines 141-179) together with its graph construction from foreign-key
  metadata (`getForeignKeyDependencies`, lines 67-86);
* the per-table migration engine `DatabaseMigrator.migrateTable` and the
  orchestrator `migrateTables` (source `src/unnamed/part_000`, lines 49-171),
  with the collaborator functions of `src/dbUtils/dbUtils.js`
  (`getTableSchema`, `backupTable`, the foreign-key toggles).

Collaborator behaviour (database answers and failures) is abstracted into an
`Env` record; the engine is a pure function from an `Env` to a
`MigrationResult` together with the trace of statements it executed against
the databases.
-/

namespace DbMigrator

/-- One row of `INFORMATION_SCHEMA.KEY_COLUMN_USAGE` as used by
`getForeignKeyDependencies`: `childTable` is the `TABLE_NAME` holding the
foreign key, `parentTable` the `REFERENCED_TABLE_NAME`. -/
structure FKEdge where
  childTable : String
  parentTable : String
deriving DecidableEq, Repr

/-- The dependency graph of `getMigrationOrder`: a JS `Map` from table name to
a `Set` of table names, modelled as an association list whose value lists are
kept in insertion order. -/
abbrev Graph := List (String × List String)

/-- Source `getForeignKeyDependencies(connection, tableName)` selects the rows of the
constraint catalog whose `REFERENCED_TABLE_NAME` is `tableName`
(`src/unnamed/part_001`, lines 67-86); the catalog itself is the `edges`
parameter. -/
def getForeignKeyDependencies (edges : List FKEdge) (t : String) : List FKEdge :=
  edges.filter (fun e => e.parentTable == t)

/-- First loop of `getMigrationOrder`: `dependencyGraph.set(table, new Set())`
for every table of the working set. -/
def graphInit (tables : List String) : Graph :=
  tables.map (fun t => (t, ([] : List String)))

/-- Lookup `dependencyGraph.get(t)`: first-match association lookup (a JS `Map` has
one entry per key).  A missing key yields `[]`; in the source a missing key is
never dereferenced because every table of the working set is initialised. -/
def graphLookup (g : Graph) (t : String) : List String :=
  match g with
  | [] => []
  | (k, s) :: rest => if k == t then s else graphLookup rest t

/-- JS `Set.add`: append the element unless already present (JS sets iterate in
insertion order). -/
def setAdd (s : List String) (x : String) : List String :=
  if x ∈ s then s else s ++ [x]

/-- Update `dependencyGraph.get(key).add(val)` on the association list. -/
def graphAdd (g : Graph) (key val : String) : Graph :=
  match g with
  | [] => []
  | (k, s) :: rest =>
    if k == key then (k, setAdd s val) :: rest
    else (k, s) :: graphAdd rest key val

/-- Second loop of `getMigrationOrder` (`src/unnamed/part_001`, lines 150-161):
for each `table`, for each foreign key referencing it, if the child table is in
the working set, add `table` to the child's dependency set. -/
def buildGraph (edges : List FKEdge) (tables : List String) : Graph :=
  tables.foldl
    (fun g t =>
      (getForeignKeyDependencies edges t).foldl
        (fun g' fk => if tables.contains fk.childTable then graphAdd g' fk.childTable t else g')
        g)
    (graphInit tables)

/-- The recursive `visit` of `getMigrationOrder` (`src/unnamed/part_001`,
lines 163-172).  State is `(visited, order)`.  The JS function recurses on the
call stack; here recursion depth is bounded by an explicit `fuel` (exhaustion
returns `none`), and `visit_and_deps_sound` below shows that the fuel used by
`getMigrationOrder` never runs out — mirroring the fact that the visited-set
check on entry bounds the JS recursion. -/
def visit (g : Graph) : Nat → String → List String × List String → Option (List String × List String)
  | 0 => fun _ _ => none
  | fuel+1 => fun t s =>
    if t ∈ s.1 then some s
    else
      match (graphLookup g t).foldlM (fun s' d => visit g fuel d s') (t :: s.1, s.2) with
      | none => none
      | some (v', o') => some (v', t :: o')

/-- The main loop `for (const table of tables) visit(table)` of
`getMigrationOrder`. -/
def visitDeps (g : Graph) (fuel : Nat) (ds : List String)
    (s : List String × List String) : Option (List String × List String) :=
  ds.foldlM (fun s' d => visit g fuel d s') s

/-- Source `getMigrationOrder(connection, tables)` (`src/unnamed/part_001`,
lines 141-179): build the dependency graph, run `visit` over every table, and
return the accumulated `order`. -/
def getMigrationOrder (edges : List FKEdge) (tables : List String) : Option (List String) :=
  let g := buildGraph edges tables
  match visitDeps g (tables.length + 1) tables ([], []) with
  | none => none
  | some (_, ord) => some ord

/-- One statement executed against a database during `migrateTable`, recorded
in order of execution.  `readChunk` and `writeRow` carry the offset
(`LIMIT offset, chunkSize`) respectively the absolute source-row index of the
statement. -/
inductive Action where
  | disableFK
  | fetchSourceSchema
  | fetchTargetSchema
  | backupCreate
  | backupInsert
  | truncateTable
  | readChunk (offset : Nat)
  | writeRow (index : Nat)
  | enableFK
deriving DecidableEq, Repr

/-- Whether an action mutates the target database (backup table creation and
filling, `TRUNCATE`, row `INSERT`s). -/
def Action.isMutation : Action → Bool
  | .backupCreate => true
  | .backupInsert => true
  | .truncateTable => true
  | .writeRow _ => true
  | _ => false

/-- Whether an action toggles `FOREIGN_KEY_CHECKS`. -/
def Action.isFKToggle : Action → Bool
  | .disableFK => true
  | .enableFK => true
  | _ => false

/-- Whether an action is a row write. -/
def Action.isWrite : Action → Bool
  | .writeRow _ => true
  | _ => false

/-- The `options` argument of `migrateTable` with the defaults of
`src/unnamed/part_000`, lines 50-56. -/
structure MigrationOptions where
  truncateTarget : Bool := true
  chunkSize : Nat := 1000
  ignoreColumns : List String := []
  foreignKeyStrategy : String := "disable"
  dryRun : Bool := false
deriving DecidableEq, Repr

/-- The result record built by `migrateTable` (`src/unnamed/part_000`,
lines 58-63). -/
structure MigrationResult where
  table : String
  success : Bool
  rowsMigrated : Nat
  errors : List String
deriving DecidableEq, Repr

/-- Behaviour of the engine's collaborators for one table migration: each
database-touching step either succeeds or raises an error with a message.
`sourceSchemaCols` and `targetSchemaCols` are the column names of the two
`DESCRIBE` results in row order (`Object.keys` of the schema object).
`sourceRows` is the source table's content at migration start (row payloads
are irrelevant to the engine, only their count and write outcomes matter);
`readErr i` injects a failure of the `SELECT ... LIMIT i, chunkSize` read and
`writeErr j` a failure of the `INSERT` of absolute source row `j`. -/
structure Env where
  disableFK : Except String Unit
  sourceSchemaCols : Except String (List String)
  targetSchemaCols : Except String (List String)
  backupCreate : Except String Unit
  backupInsert : Except String Unit
  truncateTable : Except String Unit
  sourceRows : List Nat
  readErr : Nat → Option String
  writeErr : Nat → Option String
  enableFK : Except String Unit

/-- The `commonColumns` computation of `migrateTable` (`src/unnamed/part_000`,
lines 73-75): source columns that exist in the target schema and are not
ignored. -/
def commonColumns (srcCols tgtCols ignore : List String) : List String :=
  srcCols.filter (fun c => tgtCols.contains c && !(ignore.contains c))

/-- The `INSERT` statements of one chunk: `Promise.all` launches one write per
row of the chunk (all of them are issued before the loop continues or fails). -/
def chunkWrites (offset n : Nat) : List Action :=
  (List.range n).map (fun i => Action.writeRow (offset + i))

/-- Outcome of `Promise.all` over one chunk's writes: the error of the
earliest failing row, if any (indices `offset`, ..., `offset + n - 1`). -/
def chunkWriteErr (writeErr : Nat → Option String) : Nat → Nat → Option String
  | _, 0 => none
  | offset, n+1 =>
    match writeErr offset with
    | some m => some m
    | none => chunkWriteErr writeErr (offset + 1) n

/-- The `while (true)` chunked-transfer loop of `migrateTable`
(`src/unnamed/part_000`, lines 98-130).  Returns the trace of statements and
either `ok rowsMigrated` or, when a read or write raises, `error (message,
rowsMigratedSoFar)` — the mutable `result.rowsMigrated` keeps the count
accumulated before the failure.  A chunk is `rows.drop offset |>.take
chunkSize` (`LIMIT offset, chunkSize`); the loop stops at the first empty
read.  In dry-run mode the chunk is only counted and logged, no write is
issued. -/
def transferLoop (rows : List Nat) (readErr writeErr : Nat → Option String)
    (chunkSize : Nat) (dryRun : Bool) (offset migrated : Nat) :
    List Action × Except (String × Nat) Nat :=
  match readErr offset with
  | some m => ([Action.readChunk offset], Except.error (m, migrated))
  | none =>
    if hc : ((rows.drop offset).take chunkSize).length = 0 then
      ([Action.readChunk offset], Except.ok migrated)
    else
      if dryRun then
        let rest := transferLoop rows readErr writeErr chunkSize dryRun (offset + chunkSize)
          (migrated + ((rows.drop offset).take chunkSize).length)
        (Action.readChunk offset :: rest.1, rest.2)
      else
        match chunkWriteErr writeErr offset ((rows.drop offset).take chunkSize).length with
        | some m =>
          (Action.readChunk offset :: chunkWrites offset ((rows.drop offset).take chunkSize).length,
            Except.error (m, migrated))
        | none =>
          let rest := transferLoop rows readErr writeErr chunkSize dryRun (offset + chunkSize)
            (migrated + ((rows.drop offset).take chunkSize).length)
          (Action.readChunk offset :: (chunkWrites offset ((rows.drop offset).take chunkSize).length ++ rest.1),
            rest.2)
termination_by rows.length - offset
decreasing_by
  all_goals
    simp only [List.length_take, List.length_drop] at hc
    omega

/-- The `try` block of `migrateTable` (`src/unnamed/part_000`, lines 65-132):
conditional FK disable, the two schema fetches (the `dbUtils.getTableSchema`
wrapper prepends `Error getting schema for table <t>: ` to a failure), the
common-column check, the backup (two statements, failures wrapped by
`dbUtils.backupTable` as `Error creating backup for table <t>: `), the
conditional `TRUNCATE`, and the transfer loop.  Returns the executed-statement
trace and `ok rowsMigrated` or `error (message, partialCount)`. -/
def migrateBody (env : Env) (t : String) (o : MigrationOptions) :
    List Action × Except (String × Nat) Nat :=
  let fkToggle := o.foreignKeyStrategy == "disable" && !o.dryRun
  let fkTr : List Action := if fkToggle then [Action.disableFK] else []
  match (if fkToggle then env.disableFK else Except.ok ()) with
  | Except.error m => (fkTr, Except.error (m, 0))
  | Except.ok _ =>
    match env.sourceSchemaCols with
    | Except.error m =>
      (fkTr ++ [Action.fetchSourceSchema],
        Except.error ("Error getting schema for table " ++ t ++ ": " ++ m, 0))
    | Except.ok srcCols =>
      match env.targetSchemaCols with
      | Except.error m =>
        (fkTr ++ [Action.fetchSourceSchema, Action.fetchTargetSchema],
          Except.error ("Error getting schema for table " ++ t ++ ": " ++ m, 0))
      | Except.ok tgtCols =>
        let pfx := fkTr ++ [Action.fetchSourceSchema, Action.fetchTargetSchema]
        if (commonColumns srcCols tgtCols o.ignoreColumns).isEmpty then
          (pfx, Except.error ("No common columns found for table " ++ t, 0))
        else if o.dryRun then
          let rest := transferLoop env.sourceRows env.readErr env.writeErr o.chunkSize true 0 0
          (pfx ++ rest.1, rest.2)
        else
          match env.backupCreate with
          | Except.error m =>
            (pfx ++ [Action.backupCreate],
              Except.error ("Error creating backup for table " ++ t ++ ": " ++ m, 0))
          | Except.ok _ =>
            match env.backupInsert with
            | Except.error m =>
              (pfx ++ [Action.backupCreate, Action.backupInsert],
                Except.error ("Error creating backup for table " ++ t ++ ": " ++ m, 0))
            | Except.ok _ =>
              let pfx2 := pfx ++ [Action.backupCreate, Action.backupInsert]
              if o.truncateTarget then
                match env.truncateTable with
                | Except.error m => (pfx2 ++ [Action.truncateTable], Except.error (m, 0))
                | Except.ok _ =>
                  let rest := transferLoop env.sourceRows env.readErr env.writeErr o.chunkSize false 0 0
                  (pfx2 ++ [Action.truncateTable] ++ rest.1, rest.2)
              else
                let rest := transferLoop env.sourceRows env.readErr env.writeErr o.chunkSize false 0 0
                (pfx2 ++ rest.1, rest.2)

/-- Source `migrateTable(tableName, options)` (`src/unnamed/part_000`, lines 49-155):
run the body; on success set `success = true` with empty `errors`, on a caught
error push the single message and keep the partial row count; the `finally`
block attempts `enableForeignKeyChecks` whenever the strategy is `"disable"`
and this is not a dry run — on every exit path, and a failure of the re-enable
itself is only logged (it affects neither the result nor the caller, hence the
result does not depend on `env.enableFK`). -/
def migrateTable (env : Env) (tableName : String) (o : MigrationOptions) :
    MigrationResult × List Action :=
  let fkToggle := o.foreignKeyStrategy == "disable" && !o.dryRun
  let body := migrateBody env tableName o
  let trace := body.1 ++ (if fkToggle then [Action.enableFK] else [])
  match body.2 with
  | Except.ok n => ({ table := tableName, success := true, rowsMigrated := n, errors := [] }, trace)
  | Except.error (m, n) =>
    ({ table := tableName, success := false, rowsMigrated := n, errors := [m] }, trace)

/-- Source `migrateTables(tables, options)` (`src/unnamed/part_000`, lines 157-171):
the sequential `for (const table of tables)` loop; `envs` gives each table's
collaborator behaviour.  `migrateTable` never throws (it returns its result
record on every path), so the loop always reaches every table. -/
def migrateTables (envs : String → Env) (tables : List String) (o : MigrationOptions) :
    List (String × MigrationResult) :=
  match tables with
  | [] => []
  | t :: rest => (t, (migrateTable (envs t) t o).1) :: migrateTables envs rest o

/-- A fully healthy collaborator environment: two matching columns, three
source rows, no injected failures.  Used by the witnesses. -/
def okEnv : Env where
  disableFK := Except.ok ()
  sourceSchemaCols := Except.ok ["id", "name"]
  targetSchemaCols := Except.ok ["id", "name"]
  backupCreate := Except.ok ()
  backupInsert := Except.ok ()
  truncateTable := Except.ok ()
  sourceRows := [10, 20, 30]
  readErr := fun _ => none
  writeErr := fun _ => none
  enableFK := Except.ok ()

/-- Environment whose backup structure-copy statement fails. -/
def badBackupEnv : Env := { okEnv with backupCreate := Except.error "disk full" }

/-- Environment whose `TRUNCATE` fails (a mid-run target-connection failure). -/
def failTruncEnv : Env := { okEnv with truncateTable := Except.error "connection lost" }

/-- The default options record. -/
def defaultOpts : MigrationOptions := {}

/-- Default options with `dryRun = true`. -/
def dryOpts : MigrationOptions := { dryRun := true }

/-- Options whose `ignoreColumns` removes every column present on both sides
of `okEnv`. -/
def noCommonOpts : MigrationOptions := { ignoreColumns := ["id", "name"] }

/-! ### Soundness of the depth-first traversal -/

/-- Number of working-set tables not yet visited; the measure that bounds the
recursion depth of `visit`. -/
def unvisitedCount (univ v : List String) : Nat :=
  (univ.toFinset \ v.toFinset).card

theorem unvisitedCount_le (univ v v' : List String) (h : ∀ x ∈ v, x ∈ v') :
    unvisitedCount univ v' ≤ unvisitedCount univ v := by
  apply Finset.card_le_card
  intro x hx
  simp only [Finset.mem_sdiff, List.mem_toFinset] at hx ⊢
  exact ⟨hx.1, fun hxv => hx.2 (h x hxv)⟩

theorem unvisitedCount_lt (univ v : List String) (t : String) (ht : t ∈ univ) (hv : t ∉ v) :
    unvisitedCount univ (t :: v) < unvisitedCount univ v := by
  have hsub : univ.toFinset \ (t :: v).toFinset ⊆ univ.toFinset \ v.toFinset := by
    intro x hx
    simp only [Finset.mem_sdiff, List.mem_toFinset, List.mem_cons] at hx ⊢
    exact ⟨hx.1, fun h => hx.2 (Or.inr h)⟩
  have hmem : t ∈ univ.toFinset \ v.toFinset := by
    simp only [Finset.mem_sdiff, List.mem_toFinset]
    exact ⟨ht, hv⟩
  have hnmem : t ∉ univ.toFinset \ (t :: v).toFinset := by
    simp
  exact Finset.card_lt_card ((Finset.ssubset_iff_of_subset hsub).mpr ⟨t, hmem, hnmem⟩)

/-- Combined soundness of `visit` and of its list iteration: with enough fuel
(more than the number of unvisited working-set tables), `visit` succeeds, the
visited set only grows inside the working set, the visited node ends up
visited, and visited-set and pending-plus-order stay in bijection (so the
produced order is a duplicate-free arrangement of the visited tables). -/
theorem visit_and_deps_sound (g : Graph) (univ : List String)
    (hg : ∀ t d, d ∈ graphLookup g t → d ∈ univ) :
    ∀ fuel : Nat,
      ((∀ (t : String) (v o p : List String),
          t ∈ univ → unvisitedCount univ v < fuel → v.Perm (p ++ o) → v.Nodup →
          ∃ v' o', visit g fuel t (v, o) = some (v', o') ∧
            (∀ x ∈ v, x ∈ v') ∧ t ∈ v' ∧ (∀ x ∈ v', x ∈ univ ∨ x ∈ v) ∧
            v'.Perm (p ++ o') ∧ v'.Nodup) ∧
       (∀ (ds v o p : List String),
          (∀ d ∈ ds, d ∈ univ) → unvisitedCount univ v < fuel → v.Perm (p ++ o) → v.Nodup →
          ∃ v' o', ds.foldlM (fun s' d => visit g fuel d s') ((v, o) : List String × List String) = some (v', o') ∧
            (∀ x ∈ v, x ∈ v') ∧ (∀ d ∈ ds, d ∈ v') ∧ (∀ x ∈ v', x ∈ univ ∨ x ∈ v) ∧
            v'.Perm (p ++ o') ∧ v'.Nodup)) := by
  intro fuel
  induction fuel with
  | zero =>
    constructor
    · intro t v o p _ hcount _ _
      exact absurd hcount (Nat.not_lt_zero _)
    · intro ds v o p _ hcount _ _
      exact absurd hcount (Nat.not_lt_zero _)
  | succ n ih =>
    have hP : ∀ (t : String) (v o p : List String),
        t ∈ univ → unvisitedCount univ v < n + 1 → v.Perm (p ++ o) → v.Nodup →
        ∃ v' o', visit g (n + 1) t (v, o) = some (v', o') ∧
          (∀ x ∈ v, x ∈ v') ∧ t ∈ v' ∧ (∀ x ∈ v', x ∈ univ ∨ x ∈ v) ∧
          v'.Perm (p ++ o') ∧ v'.Nodup := by
      intro t v o p ht hcount hperm hnodup
      by_cases hv : t ∈ v
      · refine ⟨v, o, ?_, fun x hx => hx, hv, fun x hx => Or.inr hx, hperm, hnodup⟩
        simp [visit, hv]
      · have hcount' : unvisitedCount univ (t :: v) < n :=
          Nat.lt_of_lt_of_le (unvisitedCount_lt univ v t ht hv) (Nat.lt_succ_iff.mp hcount)
        have hperm' : (t :: v).Perm ((t :: p) ++ o) := hperm.cons t
        have hnodup' : (t :: v).Nodup := List.nodup_cons.mpr ⟨hv, hnodup⟩
        obtain ⟨v₁, o₁, heq, hsub, hds, hin, hperm₁, hnodup₁⟩ :=
          (ih.2) (graphLookup g t) (t :: v) o (t :: p) (fun d hd => hg t d hd) hcount' hperm' hnodup'
        refine ⟨v₁, t :: o₁, ?_, ?_, ?_, ?_, ?_, hnodup₁⟩
        · simp [visit, hv, heq]
        · intro x hx
          exact hsub x (List.mem_cons_of_mem _ hx)
        · exact hsub t (List.mem_cons_self t v)
        · intro x hx
          rcases hin x hx with h | h
          · exact Or.inl h
          · rcases List.mem_cons.mp h with h | h
            · exact Or.inl (h ▸ ht)
            · exact Or.inr h
        · exact hperm₁.trans List.perm_middle.symm
    have hQ : ∀ (ds v o p : List String),
        (∀ d ∈ ds, d ∈ univ) → unvisitedCount univ v < n + 1 → v.Perm (p ++ o) → v.Nodup →
        ∃ v' o', ds.foldlM (fun s' d => visit g (n + 1) d s') ((v, o) : List String × List String) = some (v', o') ∧
          (∀ x ∈ v, x ∈ v') ∧ (∀ d ∈ ds, d ∈ v') ∧ (∀ x ∈ v', x ∈ univ ∨ x ∈ v) ∧
          v'.Perm (p ++ o') ∧ v'.Nodup := by
      intro ds
      induction ds with
      | nil =>
        intro v o p _ _ hperm hnodup
        exact ⟨v, o, rfl, fun x hx => hx, by simp, fun x hx => Or.inr hx, hperm, hnodup⟩
      | cons d ds ihds =>
        intro v o p hmem hcount hperm hnodup
        obtain ⟨v₁, o₁, heq1, hsub1, hd1, hin1, hperm1, hnodup1⟩ :=
          hP d v o p (hmem d (List.mem_cons_self d ds)) hcount hperm hnodup
        have hcount1 : unvisitedCount univ v₁ < n + 1 :=
          Nat.lt_of_le_of_lt (unvisitedCount_le univ v v₁ hsub1) hcount
        obtain ⟨v₂, o₂, heq2, hsub2, hds2, hin2, hperm2, hnodup2⟩ :=
          ihds v₁ o₁ p (fun d' hd' => hmem d' (List.mem_cons_of_mem d hd')) hcount1 hperm1 hnodup1
        refine ⟨v₂, o₂, ?_, ?_, ?_, ?_, hperm2, hnodup2⟩
        · simp only [List.foldlM_cons, heq1, Option.bind_eq_bind]
          simpa using heq2
        · exact fun x hx => hsub2 x (hsub1 x hx)
        · intro d' hd'
          rcases List.mem_cons.mp hd' with h | h
          · exact h ▸ hsub2 d hd1
          · exact hds2 d' h
        · intro x hx
          rcases hin2 x hx with h | h
          · exact Or.inl h
          · rcases hin1 x h with h' | h'
            · exact Or.inl h'
            · exact Or.inr h'
    exact ⟨hP, hQ⟩

/-- Generic preservation of an invariant along `List.foldl`. -/
theorem foldl_preserve {α β : Type} (P : α → Prop) (f : α → β → α) :
    ∀ l : List β, (∀ b ∈ l, ∀ a, P a → P (f a b)) → ∀ a, P a → P (l.foldl f a) := by
  intro l
  induction l with
  | nil =>
    intro _ a ha
    simpa using ha
  | cons b bs ih =>
    intro h a ha
    simp only [List.foldl_cons]
    exact ih (fun b' hb' a' ha' => h b' (List.mem_cons_of_mem _ hb') a' ha')
      (f a b) (h b (List.mem_cons_self _ _) a ha)

theorem mem_setAdd (s : List String) (x d : String) (hd : d ∈ setAdd s x) :
    d ∈ s ∨ d = x := by
  unfold setAdd at hd
  split at hd
  · exact Or.inl hd
  · rcases List.mem_append.mp hd with h | h
    · exact Or.inl h
    · exact Or.inr (List.mem_singleton.mp h)

theorem graphLookup_graphInit (tables : List String) (k : String) :
    graphLookup (graphInit tables) k = [] := by
  induction tables with
  | nil => rfl
  | cons t ts ih =>
    simp only [graphInit, List.map_cons, graphLookup]
    split
    · rfl
    · simpa [graphInit] using ih

theorem graphLookup_graphAdd (g : Graph) (key val k : String) :
    ∀ d ∈ graphLookup (graphAdd g key val) k, d ∈ graphLookup g k ∨ d = val := by
  induction g with
  | nil =>
    intro d hd
    simp [graphAdd, graphLookup] at hd
  | cons p rest ih =>
    obtain ⟨k₀, s⟩ := p
    intro d hd
    by_cases h1 : (k₀ == key) = true
    · simp only [graphAdd, h1, if_true] at hd
      by_cases h2 : (k₀ == k) = true
      · simp only [graphLookup, h2, if_true] at hd ⊢
        exact mem_setAdd s val d hd
      · simp only [graphLookup, h2, if_false] at hd ⊢
        exact Or.inl hd
    · simp only [graphAdd, h1, if_false] at hd
      by_cases h2 : (k₀ == k) = true
      · simp only [graphLookup, h2, if_true] at hd ⊢
        exact Or.inl hd
      · simp only [graphLookup, h2, if_false] at hd ⊢
        exact ih d hd

/-- Every dependency stored by `buildGraph` is a member of the working set:
the initial sets are empty and only tables of the working set are ever added. -/
theorem buildGraph_values (edges : List FKEdge) (tables : List String) :
    ∀ k d, d ∈ graphLookup (buildGraph edges tables) k → d ∈ tables := by
  unfold buildGraph
  apply foldl_preserve (fun g => ∀ k d, d ∈ graphLookup g k → d ∈ tables)
  · intro t htmem g hgP
    apply foldl_preserve (fun g' => ∀ k d, d ∈ graphLookup g' k → d ∈ tables)
    · intro fk _ g' hg'P k d hd
      split at hd
      · rcases graphLookup_graphAdd g' fk.childTable t k d hd with h | h
        · exact hg'P k d h
        · exact h ▸ htmem
      · exact hg'P k d hd
    · exact hgP
  · intro k d hd
    rw [graphLookup_graphInit] at hd
    simp at hd

/-- Totality of the orderer: `getMigrationOrder` always succeeds (the fuel bound `tables.length + 1`
is sufficient) and returns a duplicate-free list containing exactly the tables
of the working set. -/
theorem getMigrationOrder_exists (edges : List FKEdge) (tables : List String) :
    ∃ ord, getMigrationOrder edges tables = some ord ∧ ord.Nodup ∧
      ∀ t, t ∈ ord ↔ t ∈ tables := by
  have hg := buildGraph_values edges tables
  have hcount : unvisitedCount tables [] < tables.length + 1 := by
    unfold unvisitedCount
    have h1 : (tables.toFinset \ ([] : List String).toFinset).card ≤ tables.toFinset.card :=
      Finset.card_le_card (Finset.sdiff_subset)
    have h2 := tables.toFinset_card_le
    omega
  obtain ⟨v', o', heq, _, hall, hin, hperm, hnodup⟩ :=
    (visit_and_deps_sound (buildGraph edges tables) tables
        (fun t d hd => hg t d hd) (tables.length + 1)).2
      tables [] [] [] (fun d hd => hd) hcount (List.Perm.refl _) List.nodup_nil
  have hperm' : v'.Perm o' := by simpa using hperm
  refine ⟨o', ?_, hperm'.nodup hnodup, ?_⟩
  · simp only [getMigrationOrder, visitDeps]
    rw [heq]
  · intro t
    constructor
    · intro hto
      rcases hin t (hperm'.mem_iff.mpr hto) with h | h
      · exact h
      · simp at h
    · intro htt
      exact hperm'.mem_iff.mp (hall t htt)

/-! ### Transfer-loop lemmas -/

theorem mem_chunkWrites (offset n : Nat) (a : Action) (h : a ∈ chunkWrites offset n) :
    ∃ i, a = Action.writeRow i := by
  unfold chunkWrites at h
  rcases List.mem_map.mp h with ⟨i, _, hi⟩
  exact ⟨offset + i, hi.symm⟩

theorem chunkWriteErr_none (wE : Nat → Option String) (h : ∀ i, wE i = none) :
    ∀ n offset, chunkWriteErr wE offset n = none := by
  intro n
  induction n with
  | zero => intro offset; rfl
  | succ k ih =>
    intro offset
    simp only [chunkWriteErr, h offset]
    exact ih (offset + 1)

/-- With failure-free reads (and failure-free writes unless dry-running) and a
positive chunk size, the loop returns `ok` of the accumulated count plus the
number of source rows not yet consumed: the sum of all chunk lengths is the
source row count. -/
theorem transferLoop_all_ok (rows : List Nat) (rE wE : Nat → Option String)
    (cs : Nat) (d : Bool) (hre : ∀ i, rE i = none)
    (hw : d = true ∨ ∀ i, wE i = none) (hcs : 0 < cs) :
    ∀ n offset migrated, rows.length - offset ≤ n →
      (transferLoop rows rE wE cs d offset migrated).2 =
        Except.ok (migrated + (rows.length - offset)) := by
  intro n
  induction n with
  | zero =>
    intro offset migrated h0
    have hlen : ((rows.drop offset).take cs).length = 0 := by
      simp only [List.length_take, List.length_drop]
      omega
    rw [transferLoop]
    simp only [hre offset]
    rw [dif_pos hlen]
    have h1 : rows.length - offset = 0 := by omega
    simp [h1]
  | succ k ih =>
    intro offset migrated h
    by_cases hlen : ((rows.drop offset).take cs).length = 0
    · rw [transferLoop]
      simp only [hre offset]
      rw [dif_pos hlen]
      simp only [List.length_take, List.length_drop] at hlen
      have h1 : rows.length - offset = 0 := by omega
      simp [h1]
    · have hlt : 0 < ((rows.drop offset).take cs).length := Nat.pos_of_ne_zero hlen
      have hmin : ((rows.drop offset).take cs).length = min cs (rows.length - offset) := by
        simp [List.length_take, List.length_drop]
      have hrec : rows.length - (offset + cs) ≤ k := by omega
      rw [transferLoop]
      simp only [hre offset]
      rw [dif_neg hlen]
      cases d with
      | true =>
        simp only [if_true]
        rw [ih (offset + cs) (migrated + ((rows.drop offset).take cs).length) hrec]
        congr 1
        omega
      | false =>
        simp only [Bool.false_eq_true, if_false]
        have hwe : ∀ i, wE i = none := by
          rcases hw with h' | h'
          · exact absurd h' (by simp)
          · exact h'
        rw [chunkWriteErr_none wE hwe]
        simp only
        rw [ih (offset + cs) (migrated + ((rows.drop offset).take cs).length) hrec]
        congr 1
        omega

/-- Every action emitted by the transfer loop is a chunk read or — only when
not dry-running — a row write. -/
theorem transferLoop_trace_shape (rows : List Nat) (rE wE : Nat → Option String)
    (cs : Nat) (d : Bool) :
    ∀ n offset migrated, rows.length - offset ≤ n →
      ∀ a ∈ (transferLoop rows rE wE cs d offset migrated).1,
        (∃ j, a = Action.readChunk j) ∨ (d = false ∧ ∃ i, a = Action.writeRow i) := by
  intro n
  induction n with
  | zero =>
    intro offset migrated h0 a ha
    have hlen : ((rows.drop offset).take cs).length = 0 := by
      simp only [List.length_take, List.length_drop]
      omega
    rw [transferLoop] at ha
    cases hre : rE offset with
    | some m =>
      simp only [hre] at ha
      simp at ha
      exact Or.inl ⟨offset, ha⟩
    | none =>
      simp only [hre] at ha
      rw [dif_pos hlen] at ha
      simp at ha
      exact Or.inl ⟨offset, ha⟩
  | succ k ih =>
    intro offset migrated h a ha
    rw [transferLoop] at ha
    cases hre : rE offset with
    | some m =>
      simp only [hre] at ha
      simp at ha
      exact Or.inl ⟨offset, ha⟩
    | none =>
      simp only [hre] at ha
      by_cases hlen : ((rows.drop offset).take cs).length = 0
      · rw [dif_pos hlen] at ha
        simp at ha
        exact Or.inl ⟨offset, ha⟩
      · rw [dif_neg hlen] at ha
        have hrec : rows.length - (offset + cs) ≤ k := by
          simp only [List.length_take, List.length_drop] at hlen
          omega
        cases d with
        | true =>
          simp only [if_true, List.mem_cons] at ha
          rcases ha with h' | h'
          · exact Or.inl ⟨offset, h'⟩
          · exact ih (offset + cs) _ hrec a h'
        | false =>
          simp only [Bool.false_eq_true, if_false] at ha
          cases hcw : chunkWriteErr wE offset ((rows.drop offset).take cs).length with
          | some m =>
            simp only [hcw, List.mem_cons] at ha
            rcases ha with h' | h'
            · exact Or.inl ⟨offset, h'⟩
            · rcases mem_chunkWrites _ _ a h' with ⟨i, hi⟩
              exact Or.inr ⟨rfl, i, hi⟩
          | none =>
            simp only [hcw, List.mem_cons] at ha
            rcases ha with h' | h'
            · exact Or.inl ⟨offset, h'⟩
            · rcases List.mem_append.mp h' with h'' | h''
              · rcases mem_chunkWrites _ _ a h'' with ⟨i, hi⟩
                exact Or.inr ⟨rfl, i, hi⟩
              · exact ih (offset + cs) _ hrec a h''

/-! ### Engine evaluation lemmas -/

theorem commonColumns_self (cols : List String) : commonColumns cols cols [] = cols := by
  unfold commonColumns
  rw [List.filter_eq_self]
  intro c hc
  simp [hc]

/-- A fully successful non-dry run: the body returns `ok` of the whole source
row count. -/
theorem migrateBody_ok (env : Env) (t : String) (o : MigrationOptions) (cols : List String)
    (hT : o.truncateTarget = true) (hI : o.ignoreColumns = []) (hD : o.dryRun = false)
    (hCS : 0 < o.chunkSize) (hs : env.sourceSchemaCols = Except.ok cols)
    (ht : env.targetSchemaCols = Except.ok cols) (hcols : cols ≠ [])
    (hfk : env.disableFK = Except.ok ()) (hbc : env.backupCreate = Except.ok ())
    (hbi : env.backupInsert = Except.ok ()) (htr : env.truncateTable = Except.ok ())
    (hre : ∀ i, env.readErr i = none) (hwe : ∀ i, env.writeErr i = none) :
    (migrateBody env t o).2 = Except.ok env.sourceRows.length := by
  have hie : cols.isEmpty = false := by
    cases cols with
    | nil => exact absurd rfl hcols
    | cons a l => rfl
  unfold migrateBody
  simp only [hfk, hs, ht, hI, hD, hT, hbc, hbi, htr, ite_self, commonColumns_self, hie,
    Bool.false_eq_true, if_false, if_true, Bool.not_false, Bool.and_true]
  rw [transferLoop_all_ok env.sourceRows env.readErr env.writeErr o.chunkSize false hre
    (Or.inr hwe) hCS env.sourceRows.length 0 0 (by omega)]
  simp

/-- A dry run with healthy reads and a passing schema check: the body returns
`ok` of the whole source row count. -/
theorem migrateBody_dry_ok (env : Env) (t : String) (o : MigrationOptions)
    (cols tcols : List String) (hD : o.dryRun = true) (hCS : 0 < o.chunkSize)
    (hs : env.sourceSchemaCols = Except.ok cols) (ht : env.targetSchemaCols = Except.ok tcols)
    (hcc : commonColumns cols tcols o.ignoreColumns ≠ [])
    (hre : ∀ i, env.readErr i = none) :
    (migrateBody env t o).2 = Except.ok env.sourceRows.length := by
  have hie : (commonColumns cols tcols o.ignoreColumns).isEmpty = false := by
    cases h : commonColumns cols tcols o.ignoreColumns with
    | nil => exact absurd h hcc
    | cons a l => rfl
  unfold migrateBody
  simp only [hD, hs, ht, hie, Bool.not_true, Bool.and_false, Bool.false_eq_true, if_false,
    if_true]
  rw [transferLoop_all_ok env.sourceRows env.readErr env.writeErr o.chunkSize true hre
    (Or.inl rfl) hCS env.sourceRows.length 0 0 (by omega)]
  simp

/-- In a dry run the body never emits a mutating or FK-toggling statement,
whatever the collaborators do. -/
theorem migrateBody_dry_trace (env : Env) (t : String) (o : MigrationOptions)
    (hD : o.dryRun = true) :
    ∀ a ∈ (migrateBody env t o).1,
      (a = Action.fetchSourceSchema ∨ a = Action.fetchTargetSchema ∨
        ∃ j, a = Action.readChunk j) := by
  intro a ha
  unfold migrateBody at ha
  simp only [hD, Bool.not_true, Bool.and_false, Bool.false_eq_true, if_false,
    List.nil_append] at ha
  cases hsrc : env.sourceSchemaCols with
  | error m =>
    simp [hsrc] at ha
    exact Or.inl ha
  | ok srcCols =>
    cases htgt : env.targetSchemaCols with
    | error m =>
      simp only [hsrc, htgt, List.mem_cons, List.not_mem_nil, or_false] at ha
      rcases ha with h | h
      · exact Or.inl h
      · exact Or.inr (Or.inl h)
    | ok tgtCols =>
      simp only [hsrc, htgt] at ha
      by_cases hie : (commonColumns srcCols tgtCols o.ignoreColumns).isEmpty = true
      · rw [if_pos hie] at ha
        simp only [List.mem_cons, List.not_mem_nil, or_false] at ha
        rcases ha with h | h
        · exact Or.inl h
        · exact Or.inr (Or.inl h)
      · rw [if_neg hie] at ha
        rw [if_true] at ha
        rcases List.mem_append.mp ha with h | h
        · simp only [List.mem_cons, List.not_mem_nil, or_false] at h
          rcases h with h | h
          · exact Or.inl h
          · exact Or.inr (Or.inl h)
        · rcases transferLoop_trace_shape env.sourceRows env.readErr env.writeErr o.chunkSize
            true env.sourceRows.length 0 0 (by omega) a h with h' | h'
          · exact Or.inr (Or.inr h')
          · exact absurd h'.1 (by simp)

/-- With both schemas fetched and an empty common-column set, the body fails
with the `No common columns` message, has performed no mutation, and has read
no chunk. -/
theorem migrateBody_no_common (env : Env) (t : String) (o : MigrationOptions)
    (cols tcols : List String) (hfk : env.disableFK = Except.ok ())
    (hs : env.sourceSchemaCols = Except.ok cols) (ht : env.targetSchemaCols = Except.ok tcols)
    (hempty : commonColumns cols tcols o.ignoreColumns = []) :
    migrateBody env t o =
      ((if o.foreignKeyStrategy == "disable" && !o.dryRun then [Action.disableFK] else []) ++
        [Action.fetchSourceSchema, Action.fetchTargetSchema],
       Except.error ("No common columns found for table " ++ t, 0)) := by
  unfold migrateBody
  simp [hfk, hs, ht, hempty]

/-- With a passing schema check but a failing backup structure-copy, the body
fails with the wrapped backup message right after the `CREATE TABLE ... LIKE`
statement. -/
theorem migrateBody_backup_create_fail (env : Env) (t : String) (o : MigrationOptions)
    (cols tcols : List String) (m : String) (hD : o.dryRun = false)
    (hfk : env.disableFK = Except.ok ())
    (hs : env.sourceSchemaCols = Except.ok cols) (ht : env.targetSchemaCols = Except.ok tcols)
    (hcc : commonColumns cols tcols o.ignoreColumns ≠ [])
    (hbc : env.backupCreate = Except.error m) :
    migrateBody env t o =
      ((if o.foreignKeyStrategy == "disable" && !o.dryRun then [Action.disableFK] else []) ++
        [Action.fetchSourceSchema, Action.fetchTargetSchema] ++ [Action.backupCreate],
       Except.error ("Error creating backup for table " ++ t ++ ": " ++ m, 0)) := by
  have hie : (commonColumns cols tcols o.ignoreColumns).isEmpty = false := by
    cases h : commonColumns cols tcols o.ignoreColumns with
    | nil => exact absurd h hcc
    | cons a l => rfl
  unfold migrateBody
  simp [hfk, hs, ht, hie, hD, hbc]

/-- With a passing schema check, a successful structure-copy but a failing
backup row-copy, the body fails with the wrapped backup message right after the
`INSERT INTO <backup> SELECT *` statement. -/
theorem migrateBody_backup_insert_fail (env : Env) (t : String) (o : MigrationOptions)
    (cols tcols : List String) (m : String) (hD : o.dryRun = false)
    (hfk : env.disableFK = Except.ok ())
    (hs : env.sourceSchemaCols = Except.ok cols) (ht : env.targetSchemaCols = Except.ok tcols)
    (hcc : commonColumns cols tcols o.ignoreColumns ≠ [])
    (hbc : env.backupCreate = Except.ok ()) (hbi : env.backupInsert = Except.error m) :
    migrateBody env t o =
      ((if o.foreignKeyStrategy == "disable" && !o.dryRun then [Action.disableFK] else []) ++
        [Action.fetchSourceSchema, Action.fetchTargetSchema] ++
        [Action.backupCreate, Action.backupInsert],
       Except.error ("Error creating backup for table " ++ t ++ ": " ++ m, 0)) := by
  have hie : (commonColumns cols tcols o.ignoreColumns).isEmpty = false := by
    cases h : commonColumns cols tcols o.ignoreColumns with
    | nil => exact absurd h hcc
    | cons a l => rfl
  unfold migrateBody
  simp [hfk, hs, ht, hie, hD, hbc, hbi]

/-- The trace of `migrateTable` is the body's trace followed by the
conditional FK re-enable attempt of the `finally` block. -/
theorem migrateTable_trace (env : Env) (t : String) (o : MigrationOptions) :
    (migrateTable env t o).2 = (migrateBody env t o).1 ++
      (if o.foreignKeyStrategy == "disable" && !o.dryRun then [Action.enableFK] else []) := by
  simp only [migrateTable]
  cases h : (migrateBody env t o).2 with
  | ok n => rfl
  | error e =>
    obtain ⟨m, n⟩ := e
    rfl

/-- Result record on a successful body. -/
theorem migrateTable_result_ok (env : Env) (t : String) (o : MigrationOptions) (n : Nat)
    (h : (migrateBody env t o).2 = Except.ok n) :
    (migrateTable env t o).1 =
      { table := t, success := true, rowsMigrated := n, errors := [] } := by
  simp only [migrateTable]
  rw [h]

/-- Result record on a failing body. -/
theorem migrateTable_result_error (env : Env) (t : String) (o : MigrationOptions)
    (m : String) (n : Nat) (h : (migrateBody env t o).2 = Except.error (m, n)) :
    (migrateTable env t o).1 =
      { table := t, success := false, rowsMigrated := n, errors := [m] } := by
  simp only [migrateTable]
  rw [h]

/-! ### Claim theorems -/

/-- C1: the claim says `getMigrationOrder` places the parent before the child
for every foreign-key edge, and in particular orders A before B before C when
B references A and C references B.  Evaluating the code on exactly that input
(edges: B references A, C references B) yields `["C", "B", "A"]` — every child
precedes its parent, because `visit` prepends a table to the order after
visiting the tables it depends on, inverting the intended order. -/
theorem c1_code_behavior :
    getMigrationOrder [⟨"B", "A"⟩, ⟨"C", "B"⟩] ["A", "B", "C"] = some ["C", "B", "A"] := by
  decide

/-- C2 counterexample: on the cyclic working set (A references B and B
references A) the orderer does not fail at all — it silently returns the order
`["A", "B"]`, so the claimed `CyclicDependencyError` is never raised. -/
theorem c2_counterexample :
    getMigrationOrder [⟨"A", "B"⟩, ⟨"B", "A"⟩] ["A", "B"] = some ["A", "B"] := by
  decide

/-- C2 (amended): for every working set and every foreign-key graph over it —
cyclic graphs included — the orderer neither hangs nor overflows the stack
(the visited-set check on entry bounds the recursion) and silently returns an
order; it never fails with a `CyclicDependencyError`. -/
theorem c2_orderer_never_fails (edges : List FKEdge) (tables : List String) :
    (getMigrationOrder edges tables).isSome = true := by
  obtain ⟨ord, h, -, -⟩ := getMigrationOrder_exists edges tables
  rw [h]
  rfl

/-- C3: `migrateTable` always returns a `MigrationResult` (it is a total
function of the collaborator behaviour), `success` is true exactly when no
error was recorded, and at most one error message — the message of the step
that raised — is ever recorded. -/
theorem c3_migrateTable_total_single_error (env : Env) (t : String) (o : MigrationOptions) :
    (migrateTable env t o).1.success = (migrateTable env t o).1.errors.isEmpty ∧
    (migrateTable env t o).1.errors.length ≤ 1 := by
  cases h : (migrateBody env t o).2 with
  | ok n =>
    rw [migrateTable_result_ok env t o n h]
    exact ⟨rfl, by simp⟩
  | error e =>
    obtain ⟨m, n⟩ := e
    rw [migrateTable_result_error env t o m n h]
    exact ⟨rfl, by simp⟩

/-- C4: the orchestrator loop attempts every requested table in order, and the
entry produced for position `i` is exactly the result of running that table
against its own collaborators — so one table's failure neither prevents a
later table from being attempted nor alters any earlier table's result. -/
theorem c4_migrateTables_isolated (envs : String → Env) (tables : List String)
    (o : MigrationOptions) :
    (migrateTables envs tables o).map Prod.fst = tables ∧
    ∀ i : Nat, (migrateTables envs tables o)[i]? =
      (tables[i]?).map (fun t => (t, (migrateTable (envs t) t o).1)) := by
  constructor
  · induction tables with
    | nil => rfl
    | cons t ts ih => simp [migrateTables, ih]
  · intro i
    induction tables generalizing i with
    | nil => simp [migrateTables]
    | cons t ts ih =>
      cases i with
      | zero => simp [migrateTables]
      | succ k =>
        simp only [migrateTables, List.getElem?_cons_succ]
        exact ih k

/-- C5: with `truncateTarget = true`, no ignored columns, identical source and
target schemas, a positive chunk size and failure-free collaborators, the
migration succeeds and `rowsMigrated` equals the source table's row count at
migration start — the sum of all chunk lengths read by the transfer loop. -/
theorem c5_rows_complete (env : Env) (t : String) (o : MigrationOptions) (cols : List String)
    (hT : o.truncateTarget = true) (hI : o.ignoreColumns = []) (hD : o.dryRun = false)
    (hCS : 0 < o.chunkSize) (hs : env.sourceSchemaCols = Except.ok cols)
    (ht : env.targetSchemaCols = Except.ok cols) (hcols : cols ≠ [])
    (hfk : env.disableFK = Except.ok ()) (hbc : env.backupCreate = Except.ok ())
    (hbi : env.backupInsert = Except.ok ()) (htr : env.truncateTable = Except.ok ())
    (hre : ∀ i, env.readErr i = none) (hwe : ∀ i, env.writeErr i = none) :
    (migrateTable env t o).1.success = true ∧
    (migrateTable env t o).1.rowsMigrated = env.sourceRows.length := by
  have hbody := migrateBody_ok env t o cols hT hI hD hCS hs ht hcols hfk hbc hbi htr hre hwe
  rw [migrateTable_result_ok env t o env.sourceRows.length hbody]
  exact ⟨rfl, rfl⟩

/-- C5 witness: the healthy three-row environment with default options
migrates successfully and reports all three source rows. -/
theorem c5_witness :
    (migrateTable okEnv "users" defaultOpts).1.success = true ∧
    (migrateTable okEnv "users" defaultOpts).1.rowsMigrated = okEnv.sourceRows.length :=
  c5_rows_complete okEnv "users" defaultOpts ["id", "name"] rfl rfl rfl (by decide)
    rfl rfl (by decide) rfl rfl rfl rfl (fun _ => rfl) (fun _ => rfl)

/-- C6: in a dry run (with healthy reads and a passing schema check) the
engine executes no backup, no truncate, no FK toggle and no row write — every
executed statement is a schema fetch or a chunk read — yet `rowsMigrated`
still equals the source row count that would have been migrated. -/
theorem c6_dryRun_no_mutation (env : Env) (t : String) (o : MigrationOptions)
    (cols tcols : List String) (hD : o.dryRun = true) (hCS : 0 < o.chunkSize)
    (hs : env.sourceSchemaCols = Except.ok cols) (ht : env.targetSchemaCols = Except.ok tcols)
    (hcc : commonColumns cols tcols o.ignoreColumns ≠ [])
    (hre : ∀ i, env.readErr i = none) :
    ((migrateTable env t o).2.all (fun a => !a.isMutation && !a.isFKToggle)) = true ∧
    (migrateTable env t o).1.rowsMigrated = env.sourceRows.length := by
  have hft : (o.foreignKeyStrategy == "disable" && !o.dryRun) = false := by
    simp [hD]
  have hbody := migrateBody_dry_ok env t o cols tcols hD hCS hs ht hcc hre
  constructor
  · rw [List.all_eq_true]
    intro a ha
    rw [migrateTable_trace env t o, hft] at ha
    simp only [Bool.false_eq_true, if_false, List.append_nil] at ha
    rcases migrateBody_dry_trace env t o hD a ha with h | h | ⟨j, h⟩ <;>
      subst h <;> rfl
  · rw [migrateTable_result_ok env t o env.sourceRows.length hbody]

/-- C6 witness: the healthy environment in dry-run mode mutates nothing and
still counts all three source rows. -/
theorem c6_witness :
    ((migrateTable okEnv "users" dryOpts).2.all (fun a => !a.isMutation && !a.isFKToggle)) = true ∧
    (migrateTable okEnv "users" dryOpts).1.rowsMigrated = okEnv.sourceRows.length :=
  c6_dryRun_no_mutation okEnv "users" dryOpts ["id", "name"] ["id", "name"] rfl (by decide)
    rfl rfl (by decide) (fun _ => rfl)

/-- C7: when the common-column intersection (source columns present in the
target schema and not ignored) is empty, the table fails with the
`No common columns found for table <t>` message, `rowsMigrated = 0`,
`success = false`, and no mutating statement (backup, truncate, write) was
executed. -/
theorem c7_no_common_columns (env : Env) (t : String) (o : MigrationOptions)
    (cols tcols : List String) (hfk : env.disableFK = Except.ok ())
    (hs : env.sourceSchemaCols = Except.ok cols) (ht : env.targetSchemaCols = Except.ok tcols)
    (hempty : commonColumns cols tcols o.ignoreColumns = []) :
    (migrateTable env t o).1.success = false ∧
    (migrateTable env t o).1.rowsMigrated = 0 ∧
    (migrateTable env t o).1.errors = ["No common columns found for table " ++ t] ∧
    ((migrateTable env t o).2.all (fun a => !a.isMutation)) = true := by
  have hbody := migrateBody_no_common env t o cols tcols hfk hs ht hempty
  have h2 : (migrateBody env t o).2 =
      Except.error ("No common columns found for table " ++ t, 0) := by
    rw [hbody]
  have h1 : (migrateBody env t o).1 =
      (if o.foreignKeyStrategy == "disable" && !o.dryRun then [Action.disableFK] else []) ++
        [Action.fetchSourceSchema, Action.fetchTargetSchema] := by
    rw [hbody]
  rw [migrateTable_result_error env t o _ 0 h2]
  refine ⟨rfl, rfl, rfl, ?_⟩
  rw [migrateTable_trace env t o, h1]
  by_cases hft : (o.foreignKeyStrategy == "disable" && !o.dryRun) = true
  · simp only [hft, if_true]
    decide
  · simp only [Bool.not_eq_true] at hft
    simp only [hft, Bool.false_eq_true, if_false]
    decide

/-- C7 witness: ignoring both shared columns of the healthy environment fails
the table with the `No common columns` message, zero rows and no mutation. -/
theorem c7_witness :
    (migrateTable okEnv "users" noCommonOpts).1.success = false ∧
    (migrateTable okEnv "users" noCommonOpts).1.rowsMigrated = 0 ∧
    (migrateTable okEnv "users" noCommonOpts).1.errors =
      ["No common columns found for table " ++ "users"] ∧
    ((migrateTable okEnv "users" noCommonOpts).2.all (fun a => !a.isMutation)) = true :=
  c7_no_common_columns okEnv "users" noCommonOpts ["id", "name"] ["id", "name"]
    rfl rfl rfl (by decide)

/-- C8: when the backup step fails (either its structure-copy or its row-copy
statement), the migration stops there: the result carries exactly the wrapped
backup error with `success = false` and `rowsMigrated = 0`, and the trace
contains no `TRUNCATE` and no row write — the target data is untouched by the
attempt. -/
theorem c8_backup_failure_stops (env : Env) (t : String) (o : MigrationOptions)
    (cols tcols : List String) (m : String) (hD : o.dryRun = false)
    (hfk : env.disableFK = Except.ok ())
    (hs : env.sourceSchemaCols = Except.ok cols) (ht : env.targetSchemaCols = Except.ok tcols)
    (hcc : commonColumns cols tcols o.ignoreColumns ≠ [])
    (hb : env.backupCreate = Except.error m ∨
      (env.backupCreate = Except.ok () ∧ env.backupInsert = Except.error m)) :
    (migrateTable env t o).1.success = false ∧
    (migrateTable env t o).1.rowsMigrated = 0 ∧
    (migrateTable env t o).1.errors = ["Error creating backup for table " ++ t ++ ": " ++ m] ∧
    ((migrateTable env t o).2.all
      (fun a => !(a == Action.truncateTable) && !a.isWrite)) = true := by
  rcases hb with hbc | ⟨hbc, hbi⟩
  · have hbody := migrateBody_backup_create_fail env t o cols tcols m hD hfk hs ht hcc hbc
    have h2 : (migrateBody env t o).2 =
        Except.error ("Error creating backup for table " ++ t ++ ": " ++ m, 0) := by
      rw [hbody]
    have h1 : (migrateBody env t o).1 =
        (if o.foreignKeyStrategy == "disable" && !o.dryRun then [Action.disableFK] else []) ++
          [Action.fetchSourceSchema, Action.fetchTargetSchema] ++ [Action.backupCreate] := by
      rw [hbody]
    rw [migrateTable_result_error env t o _ 0 h2]
    refine ⟨rfl, rfl, rfl, ?_⟩
    rw [migrateTable_trace env t o, h1]
    by_cases hft : (o.foreignKeyStrategy == "disable" && !o.dryRun) = true
    · simp only [hft, if_true]
      decide
    · simp only [Bool.not_eq_true] at hft
      simp only [hft, Bool.false_eq_true, if_false]
      decide
  · have hbody := migrateBody_backup_insert_fail env t o cols tcols m hD hfk hs ht hcc hbc hbi
    have h2 : (migrateBody env t o).2 =
        Except.error ("Error creating backup for table " ++ t ++ ": " ++ m, 0) := by
      rw [hbody]
    have h1 : (migrateBody env t o).1 =
        (if o.foreignKeyStrategy == "disable" && !o.dryRun then [Action.disableFK] else []) ++
          [Action.fetchSourceSchema, Action.fetchTargetSchema] ++
          [Action.backupCreate, Action.backupInsert] := by
      rw [hbody]
    rw [migrateTable_result_error env t o _ 0 h2]
    refine ⟨rfl, rfl, rfl, ?_⟩
    rw [migrateTable_trace env t o, h1]
    by_cases hft : (o.foreignKeyStrategy == "disable" && !o.dryRun) = true
    · simp only [hft, if_true]
      decide
    · simp only [Bool.not_eq_true] at hft
      simp only [hft, Bool.false_eq_true, if_false]
      decide

/-- C8 witness: a failing backup structure-copy on the healthy environment
yields the wrapped message, zero rows, and a trace with no truncate and no
write. -/
theorem c8_witness :
    (migrateTable badBackupEnv "users" defaultOpts).1.success = false ∧
    (migrateTable badBackupEnv "users" defaultOpts).1.rowsMigrated = 0 ∧
    (migrateTable badBackupEnv "users" defaultOpts).1.errors =
      ["Error creating backup for table " ++ "users" ++ ": " ++ "disk full"] ∧
    ((migrateTable badBackupEnv "users" defaultOpts).2.all
      (fun a => !(a == Action.truncateTable) && !a.isWrite)) = true :=
  c8_backup_failure_stops badBackupEnv "users" defaultOpts ["id", "name"] ["id", "name"]
    "disk full" rfl rfl rfl rfl (by decide) (Or.inl rfl)

/-- C9: with `foreignKeyStrategy = "disable"` and `dryRun = false` the
`SET FOREIGN_KEY_CHECKS = 1` statement is attempted on every exit path (it is
in the trace unconditionally of any collaborator failure), and a failure of
the re-enable itself changes nothing observable: the returned result and trace
are identical whether `enableFK` succeeds or raises. -/
theorem c9_fk_reenable_always (env : Env) (t : String) (o : MigrationOptions) (m : String)
    (hstrat : o.foreignKeyStrategy = "disable") (hD : o.dryRun = false) :
    Action.enableFK ∈ (migrateTable env t o).2 ∧
    migrateTable { env with enableFK := Except.error m } t o = migrateTable env t o := by
  constructor
  · have hft : (o.foreignKeyStrategy == "disable" && !o.dryRun) = true := by
      simp [hstrat, hD]
    rw [migrateTable_trace env t o, hft]
    simp
  · rfl

/-- C9 witness: on the healthy environment with default options the re-enable
statement is in the trace and injecting a re-enable failure leaves the whole
outcome unchanged. -/
theorem c9_witness :
    Action.enableFK ∈ (migrateTable okEnv "users" defaultOpts).2 ∧
    migrateTable { okEnv with enableFK := Except.error "boom" } "users" defaultOpts =
      migrateTable okEnv "users" defaultOpts :=
  c9_fk_reenable_always okEnv "users" defaultOpts "boom" rfl rfl

/-- C10: for every working set and every foreign-key graph over it — cyclic
graphs included — `getMigrationOrder` terminates (the visited set lets the
fuel `tables.length + 1` suffice, so the traversal never exhausts it) and
returns a duplicate-free sequence containing exactly the tables of the
working set. -/
theorem c10_order_total_and_complete (edges : List FKEdge) (tables : List String) :
    ∃ ord, getMigrationOrder edges tables = some ord ∧ ord.Nodup ∧
      ∀ t, t ∈ ord ↔ t ∈ tables :=
  getMigrationOrder_exists edges tables

end DbMigrator
